import Mathlib

/-!
# stelnet: a shallow embedding of `cmd/stelnet/cmd/root.go` and `cmd/main.go`

The two Go files are embedded as pure functions over an explicit environment.
Every interaction with the outside world (dialing, reading a line from
standard input, writing to and reading from the connection, closing it,
printing and logging) is recorded as an `Event`; the answers of the outside
world are taken from an `Env`, indexed by the number of calls made so far.

* Go `string` values that come from the command line are Lean `String`s.
* Go `[]byte` values and the text that travels over standard input and the
  connection are `Bytes`; `str` is the byte sequence of a Go string.
* The unbounded `for` loops run on fuel: `none` as outcome means that the
  loop is still running when the fuel is used up.
-/

namespace Stelnet

/-! ## Go values -/

/-- A Go byte slice, and the contents of a Go string. -/
abbrev Bytes := List UInt8

/-- The bytes of a Go string (its UTF-8 encoding): `[]byte(s)`. -/
def str (s : String) : Bytes := s.toList.flatMap String.utf8EncodeChar

/-- A Go `error` value returned by the I/O calls: the sentinel `io.EOF`, or
any other error with its message. -/
inductive GoError where
  | EOF
  | other (msg : String)
  deriving DecidableEq, Repr

/-- The method `err.Error()`, which `%v` prints. -/
def GoError.Error : GoError → String
  | .EOF => "EOF"
  | .other msg => msg

/-- The error `*strconv.NumError` of `strconv.Atoi` for the input `num`.  Its
kind (`ErrSyntax` or `ErrRange`) is left out: `run` only tests `err != nil`. -/
structure NumError where
  num : String
  deriving DecidableEq, Repr

/-- Go standard library `strconv.Atoi(s)`, which is `ParseInt(s, 10, 0)` on a
platform with 64-bit `int`: an optional leading `+` or `-`, then one or more
decimal digits; an error when there is no digit, when a character is not a
decimal digit, or when the value does not fit a signed 64-bit integer. -/
def Atoi (s : String) : Except NumError Int :=
  let cs := s.toList
  let neg := cs.head? = some '-'
  let ds := if cs.head? = some '+' ∨ cs.head? = some '-' then cs.tail else cs
  if ds = [] then .error ⟨s⟩
  else if ds.all Char.isDigit then
    let v : Nat := ds.foldl (fun acc c => 10 * acc + (c.toNat - '0'.toNat)) 0
    let i : Int := if neg then -(v : Int) else (v : Int)
    if -(2 : Int) ^ 63 ≤ i ∧ i ≤ (2 : Int) ^ 63 - 1 then .ok i else .error ⟨s⟩
  else .error ⟨s⟩

/-- The characters of a numeral after its sign, if it has one. -/
def digitsOf (s : String) : List Char :=
  match s.toList with
  | [] => []
  | c :: r => if c = '+' ∨ c = '-' then r else c :: r

/-- The word *numeric* of the specification, stated on its own and not through
`Atoi`: an optional sign `+` or `-` followed by one or more decimal digits. -/
def isNumeric (s : String) : Bool :=
  !(digitsOf s).isEmpty && (digitsOf s).all Char.isDigit

/-- The integer that a numeric string denotes. -/
def numericValue (s : String) : Int :=
  let v : Nat := (digitsOf s).foldl (fun acc c => 10 * acc + (c.toNat - 48)) 0
  if s.toList.head? = some '-' then -(v : Int) else (v : Int)

/-- A numeric string whose value fits the 64-bit `int` of Go. -/
def numericInt (s : String) : Prop :=
  isNumeric s = true ∧ -(2 : Int) ^ 63 ≤ numericValue s ∧ numericValue s ≤ (2 : Int) ^ 63 - 1

instance (s : String) : Decidable (numericInt s) := by
  unfold numericInt; infer_instance

/-- Go `make([]byte, n)`: a zeroed byte slice of length `n`. -/
def make (n : Nat) : Bytes := List.replicate n 0

/-! ## The outside world -/

/-- The connection handle `*tls.Conn` returned by a successful `tls.Dial`. -/
structure Conn where
  addr : String
  insecure : Bool
  deriving DecidableEq, Repr

/-- What the outside world answers.  `dial addr insecure` is the error of
`tls.Dial("tcp", addr, conf)` (`none` for success); `stdin k` is what the
`k`-th `reader.ReadString` returns (text and error); `write k data` is the
error of the `k`-th `conn.Write`; `read k` is what the transport delivers to
the `k`-th `conn.Read` (the bytes it has and the error it reports); `close`
is the error of `conn.Close`. -/
structure Env where
  dial : String → Bool → Option GoError
  stdin : Nat → Bytes × Option GoError
  write : Nat → Bytes → Option GoError
  read : Nat → Bytes × Option GoError
  close : Option GoError

/-- The mutable state of the process: the package-level variable `conn`
(`none` is `nil`) and the number of calls made so far on standard input and
on the connection. -/
structure World where
  conn : Option Conn
  lines : Nat
  writes : Nat
  reads : Nat
  deriving DecidableEq, Repr

/-- The state in which the process starts: `conn` is `nil`, nothing was read
or written. -/
def World.init : World := ⟨none, 0, 0, 0⟩

/-- Go `io.Reader` contract for `conn.Read(buf)` when the transport delivers
`resp.1` with error `resp.2`: `n = min (len buf) (len resp.1)` bytes are
copied to the front of `buf`; the result is `(n, buf, err)`. -/
def connRead (buf : Bytes) (resp : Bytes × Option GoError) : Nat × Bytes × Option GoError :=
  let n := min buf.length resp.1.length
  (n, resp.1.take n ++ buf.drop n, resp.2)

/-- Contract of `(*tls.Conn).Read` on a buffer that is not empty: a read that
reports no error delivers at least one byte (the call blocks until
application data has arrived). -/
def TLSReads (env : Env) : Prop :=
  ∀ k, (env.read k).2 = none → (env.read k).1 ≠ []

/-- The observable actions of the process, in the order they happen. -/
inductive Event where
  /-- Output of `fmt.Print` or `fmt.Println` on standard output. -/
  | print (out : Bytes)
  /-- The formatted message of a `log.Print`, `log.Printf` or `log.Fatalf`. -/
  | log (msg : Bytes)
  /-- Call of `showCertificate()`: the dump of the connection state. -/
  | showCertificate
  /-- Call of `tls.Dial("tcp", addr, conf)` and its error. -/
  | dial (addr : String) (insecure : Bool) (err : Option GoError)
  /-- Call of `reader.ReadString` on standard input: the text and the error returned. -/
  | stdinRead (text : Bytes) (err : Option GoError)
  /-- Call of `conn.Write(data)` and its error. -/
  | connWrite (data : Bytes) (err : Option GoError)
  /-- Call of `conn.Read(buf)`: the length of `buf`, the count `n` returned, the
  buffer after the call and the error. -/
  | connRead (bufLen : Nat) (n : Nat) (buf : Bytes) (err : Option GoError)
  /-- Call of `conn.Close()` on the handle held in `conn` (`none`: a nil pointer) and
  its error. -/
  | connClose (c : Option Conn) (err : Option GoError)
  deriving DecidableEq, Repr

/-- How the process, or the function `run`, ends. -/
inductive Outcome where
  /-- Call of `os.Exit(status)`, also through `log.Fatalf`. -/
  | exit (status : Nat)
  /-- The function returned normally; a Go process whose `main` returns
  exits with status 0. -/
  | returned
  /-- A run-time panic (nil pointer dereference); the Go runtime exits with
  status 2. -/
  | panic
  deriving DecidableEq, Repr

/-- The exit status of the process for an outcome. -/
def Outcome.status : Outcome → Nat
  | .exit s => s
  | .returned => 0
  | .panic => 2

/-- The result of running a piece of the program: the events it produced,
how it ended (`none`: still running when the fuel ran out) and the state. -/
structure Run where
  trace : List Event
  outcome : Option Outcome
  world : World
  deriving DecidableEq, Repr

/-- Put an event in front of what follows. -/
def emit (e : Event) (r : Run) : Run := { r with trace := e :: r.trace }

/-- Go `os.Exit(status)`. -/
def osExit (status : Nat) (w : World) : Run := ⟨[], some (.exit status), w⟩

/-- Go `log.Fatalf` (of the logger `yaglogger`, as of the standard `log`): logs
the message, then `os.Exit(1)`. -/
def Fatalf (msg : String) (w : World) : Run := emit (.log (str msg)) (osExit 1 w)

/-- A normal `return`. -/
def ret (w : World) : Run := ⟨[], some .returned, w⟩

/-- The command-line flags declared in `init`, after parsing. -/
structure Flags where
  insecure : Bool
  port : String
  prompt : String
  padding : String
  toggle : Bool
  certificate : Bool
  deriving DecidableEq, Repr

/-- The defaults given in `init`. -/
def Flags.default : Flags :=
  { insecure := false, port := "443", prompt := "$", padding := " ",
    toggle := false, certificate := false }

/-! ## Observations on traces -/

/-- The lines returned by the reads on standard input, in order. -/
def linesRead (t : List Event) : List Bytes :=
  t.filterMap (fun e => match e with | .stdinRead L _ => some L | _ => none)

/-- The byte sequences passed to `conn.Write`, in order. -/
def dataWritten (t : List Event) : List Bytes :=
  t.filterMap (fun e => match e with | .connWrite d _ => some d | _ => none)

/-- A `conn.Read` call. -/
def Event.isRead : Event → Bool
  | .connRead _ _ _ _ => true
  | _ => false

/-- A `conn.Write` call that returned no error. -/
def Event.isOkWrite : Event → Bool
  | .connWrite _ none => true
  | _ => false

/-- A `conn.Close` call. -/
def Event.isClose : Event → Bool
  | .connClose _ _ => true
  | _ => false

/-- A `conn.Read` call that returned `io.EOF`. -/
def Event.isEOFRead : Event → Bool
  | .connRead _ _ _ (some .EOF) => true
  | _ => false

/-- A `conn.Write` call that failed, or a `conn.Read` call that returned an
error other than `io.EOF`. -/
def Event.isFailure : Event → Bool
  | .connWrite _ (some _) => true
  | .connRead _ _ _ (some err) => decide (err ≠ .EOF)
  | _ => false

/-- An event that neither closes the connection nor reports an error on it. -/
def Event.calm (e : Event) : Bool := !e.isClose && !e.isEOFRead && !e.isFailure

/-- A `conn.Write` call. -/
def Event.isWrite : Event → Bool
  | .connWrite _ _ => true
  | _ => false

/-! ## Scripted environments -/

/-- An environment from a script: the dial and every write succeed, the
`k`-th line read and the `k`-th connection read return the `k`-th entry of
`lines` and of `reads`, and `io.EOF` with no data once the script is over. -/
def scriptEnv (lines reads : List (Bytes × Option GoError)) (closeErr : Option GoError) : Env :=
  { dial := fun _ _ => none
    stdin := fun k => lines.getD k ([], some .EOF)
    write := fun _ _ => none
    read := fun k => reads.getD k ([], some .EOF)
    close := closeErr }

/-! ## `cmd/stelnet/cmd/root.go` -/

namespace RootGo

/-- The interrupt notice of `catchInterrupt`. -/
def interruptNotice : String := "\nReceived an interrupt, closing connection...\n"

/-- The notice logged when the connection read returns `io.EOF`. -/
def eofNotice : String := "Received EOF, closing connection...\n"

/-- Function `catchInterrupt` from the moment the signal is received on `sigChan`. -/
def catchInterrupt (env : Env) (w : World) : Run :=
  emit (.log (str interruptNotice)) <|
  match w.conn with
  | none => osExit 0 w
  | some c =>
    emit (.connClose (some c) env.close) <|
    match env.close with
    | some err => Fatalf ("Failed to close connection: " ++ err.Error) w
    | none => osExit 0 w

/-- The statements of `run` after the `for` loop: `if conn != nil` close the
connection, and return whether or not the close failed. -/
def closeAfterLoop (env : Env) (w : World) : Run :=
  match w.conn with
  | none => ret w
  | some c =>
    emit (.connClose (some c) env.close) <|
    match env.close with
    | some _ => ret w
    | none => ret w

/-- The `for` loop of `run`, followed (on `break`) by the statements after
it.  One unit of fuel is one iteration. -/
def loop (env : Env) (prompt padding : String) : Nat → World → Run
  | 0, w => ⟨[], none, w⟩
  | fuel + 1, w =>
    emit (.print (str (prompt ++ padding))) <|
    let line := env.stdin w.lines
    let text := line.1
    let w := { w with lines := w.lines + 1 }
    emit (.stdinRead text line.2) <|
    let werr := env.write w.writes text
    let w := { w with writes := w.writes + 1 }
    emit (.connWrite text werr) <|
    match werr with
    | some err => Fatalf ("Failed to write to connection: " ++ err.Error) w
    | none =>
      let buf := make 1024
      let res := connRead buf (env.read w.reads)
      let n := res.1
      let buf1 := res.2.1
      let w := { w with reads := w.reads + 1 }
      emit (.connRead buf.length n buf1 res.2.2) <|
      match res.2.2 with
      | some err =>
        if err = GoError.EOF then
          emit (.log (str eofNotice)) <| closeAfterLoop env w
        else Fatalf ("Failed to read: " ++ err.Error) w
      | none =>
        emit (.log (str "Received: " ++ buf1.take n)) <| loop env prompt padding fuel w

/-- The function `run`.  The flag `insecure` is declared as a boolean in
`init`, so `GetBool` returns no error; the watcher started by
`go catchInterrupt()` is `catchInterrupt` above. -/
def run (env : Env) (flags : Flags) (args : List String) (fuel : Nat) (w : World) : Run :=
  let port := flags.port
  let prompt := flags.prompt
  let padding := flags.padding
  let insecure := flags.insecure
  if args.length < 1 then Fatalf "No host specified." w
  else
    let host := args.getD 0 ""
    let checked : Option String :=
      if args.length ≥ 2 then
        match Atoi (args.getD 1 "") with
        | .error _ => none
        | .ok _ => some (args.getD 1 "")
      else some port
    match checked with
    | none => Fatalf "Invalid port specified." w
    | some port =>
      emit (.log (str ("Trying " ++ host ++ "..."))) <|
      let addr := host ++ ":" ++ port
      let derr := env.dial addr insecure
      emit (.dial addr insecure derr) <|
      match derr with
      | some err => Fatalf ("Failed to dial: " ++ err.Error) { w with conn := none }
      | none =>
        let w := { w with conn := some ⟨addr, insecure⟩ }
        (if flags.certificate then emit .showCertificate else id) <|
        emit (.log (str ("Connected to: " ++ host ++ "(" ++ port ++ ")"))) <|
        emit (.log (str "Escape character is \x27^c\x27.")) <|
        loop env prompt padding fuel w

/-! ### Vocabulary for statements about traces -/

/-- The state after a full iteration of the loop. -/
def World.step (w : World) : World :=
  { w with lines := w.lines + 1, writes := w.writes + 1, reads := w.reads + 1 }

/-- A trace with final outcome `o` in which every event `a` stands in relation
`R` to the events after it and to `o`. -/
def Follows (R : Event → List Event → Option Outcome → Prop) (t : List Event)
    (o : Option Outcome) : Prop :=
  ∀ i a, t[i]? = some a → R a (t.drop (i + 1)) o

/-- What comes after each event of the interactive loop, `p` being the prompt
and `o` the outcome of the run. -/
def LoopNext (p : Bytes) (a : Event) (rest : List Event) (o : Option Outcome) : Prop :=
  (∀ L e, a = .stdinRead L e → ∃ r, rest[0]? = some (.connWrite L r)) ∧
  (∀ d, a = .connWrite d none →
    ∃ n buf r, rest[0]? = some (.connRead 1024 n buf r) ∧ n ≤ 1024) ∧
  (∀ d err, a = .connWrite d (some err) →
    rest = [.log (str ("Failed to write to connection: " ++ err.Error))] ∧
    o = some (.exit 1)) ∧
  (∀ len n buf, a = .connRead len n buf none →
    len = 1024 ∧ rest[0]? = some (.log (str "Received: " ++ buf.take n)) ∧
    ((rest[1]? = none ∧ o = none) ∨
      (rest[1]? = some (.print p) ∧ ∃ L e, rest[2]? = some (.stdinRead L e)))) ∧
  (∀ len n buf, a = .connRead len n buf (some .EOF) →
    rest[0]? = some (.log (str eofNotice)) ∧ (∀ e ∈ rest.drop 1, ∃ c r, e = .connClose c r) ∧
    o = some .returned) ∧
  (∀ len n buf err, a = .connRead len n buf (some err) → err ≠ .EOF →
    rest = [.log (str ("Failed to read: " ++ err.Error))] ∧ o = some (.exit 1))

/-- The addresses dialed in a trace, in order. -/
def dials (t : List Event) : List String :=
  t.filterMap (fun e => match e with | .dial a _ _ => some a | _ => none)

/-- The host `args[0]`. -/
def hostOf (args : List String) : String := args.getD 0 ""

/-- The port that `run` uses: `args[1]` when given, the flag otherwise. -/
def portOf (flags : Flags) (args : List String) : String :=
  if args.length ≥ 2 then args.getD 1 "" else flags.port

/-- The arguments that `run` accepts: a host, and a second argument, if any,
that `strconv.Atoi` parses. -/
def argsOk (args : List String) : Prop :=
  1 ≤ args.length ∧ (2 ≤ args.length → (Atoi (args.getD 1 "")).isOk = true)

instance (args : List String) : Decidable (argsOk args) := by
  unfold argsOk; infer_instance

/-- The events of `run` between the dial and the loop. -/
def banner (flags : Flags) (args : List String) : List Event :=
  (if flags.certificate then [Event.showCertificate] else []) ++
    [.log (str ("Connected to: " ++ hostOf args ++ "(" ++ portOf flags args ++ ")")),
     .log (str "Escape character is \x27^c\x27.")]

end RootGo

/-! ## `cmd/main.go` -/

namespace MainGo

/-- The address that `main` dials. -/
def dialAddr : String := "www.watskebeurt.nl:443"

/-- The point that `main` has reached. -/
inductive PC where
  /-- Before `tls.Dial`; the watcher has been started. -/
  | dialing
  /-- At the top of the `for` loop, before `fmt.Print("$ ")`. -/
  | prompting
  /-- Before `reader.ReadString`. -/
  | readingLine
  /-- Before `conn.Write([]byte(text))`. -/
  | writing (text : Bytes)
  /-- Before `conn.Read(buf)`. -/
  | reading
  /-- Before `log.Printf("Received: %s", string(buf[:n]))`. -/
  | logging (n : Nat) (buf : Bytes)
  /-- The process has ended. -/
  | done (o : Outcome)
  deriving DecidableEq, Repr

/-- A state of `main`: the program point, the package-level state (`world`,
with the package-level variable `conn`), the local variable `conn` that
`conn, err := tls.Dial(...)` declares inside `main`, and the events so far. -/
structure State where
  pc : PC
  world : World
  localConn : Option Conn
  trace : List Event
  deriving DecidableEq, Repr

/-- The state in which `main` starts. -/
def State.init : State := ⟨.dialing, World.init, none, []⟩

/-- One statement of `main`.  The dial result goes to the local `conn`; no
statement assigns the package-level `conn`. -/
def step (env : Env) (s : State) : State :=
  match s.pc with
  | .dialing =>
    match env.dial dialAddr true with
    | some err =>
      { s with pc := .done (.exit 1),
               trace := s.trace ++ [.dial dialAddr true (some err),
                 .log (str ("Failed to dial: " ++ err.Error))] }
    | none =>
      { s with pc := .prompting, localConn := some ⟨dialAddr, true⟩,
               trace := s.trace ++ [.dial dialAddr true none] }
  | .prompting =>
    { s with pc := .readingLine, trace := s.trace ++ [.print (str "$ ")] }
  | .readingLine =>
    let line := env.stdin s.world.lines
    { s with pc := .writing line.1,
             world := { s.world with lines := s.world.lines + 1 },
             trace := s.trace ++ [.stdinRead line.1 line.2] }
  | .writing text =>
    match env.write s.world.writes text with
    | some err =>
      { s with pc := .done (.exit 1),
               world := { s.world with writes := s.world.writes + 1 },
               trace := s.trace ++ [.connWrite text (some err),
                 .log (str ("Failed to write to connection: " ++ err.Error))] }
    | none =>
      { s with pc := .reading,
               world := { s.world with writes := s.world.writes + 1 },
               trace := s.trace ++ [.connWrite text none] }
  | .reading =>
    let buf := make 1024
    let res := connRead buf (env.read s.world.reads)
    match res.2.2 with
    | some err =>
      { s with pc := .done (.exit 1),
               world := { s.world with reads := s.world.reads + 1 },
               trace := s.trace ++ [.connRead buf.length res.1 res.2.1 (some err),
                 .log (str ("Failed to read: " ++ err.Error))] }
    | none =>
      { s with pc := .logging res.1 res.2.1,
               world := { s.world with reads := s.world.reads + 1 },
               trace := s.trace ++ [.connRead buf.length res.1 res.2.1 none] }
  | .logging n buf =>
    { s with pc := .prompting, trace := s.trace ++ [.log (str "Received: " ++ buf.take n)] }
  | .done _ => s

/-- The state of `main` after `n` statements. -/
def reach (env : Env) : Nat → State
  | 0 => State.init
  | n + 1 => step env (reach env n)

/-- Function `catchInterrupt` of `main.go` from the moment the signal is
received, in package-level state `w`: it prints the notice and calls
`conn.Close()` on the package-level `conn` without testing it; on a nil
`*tls.Conn` the method dereferences its receiver, which is a run-time panic. -/
def catchInterrupt (env : Env) (w : World) : Run :=
  emit (.print (str "\nReceived an interrupt, closing connection...\n")) <|
  match w.conn with
  | none => emit (.connClose none none) ⟨[], some .panic, w⟩
  | some c =>
    emit (.connClose (some c) env.close) <|
    match env.close with
    | some err => Fatalf ("Failed to close connection: " ++ err.Error) w
    | none => osExit 0 w

end MainGo

end Stelnet

/-! ## Lemmas -/

set_option maxRecDepth 100000

namespace Stelnet

theorem length_make (n : Nat) : (make n).length = n := by simp [make]

theorem Atoi_digits (s : String) :
    (if s.toList.head? = some '+' ∨ s.toList.head? = some '-' then s.toList.tail else s.toList) =
      digitsOf s := by
  unfold digitsOf
  cases s.toList with
  | nil => simp
  | cons c r => simp

theorem Atoi_isOk_iff (s : String) : (Atoi s).isOk = true ↔ numericInt s := by
  have hA : Atoi s =
      if digitsOf s = [] then .error ⟨s⟩
      else if (digitsOf s).all Char.isDigit then
        if -(2 : Int) ^ 63 ≤ numericValue s ∧ numericValue s ≤ (2 : Int) ^ 63 - 1 then
          .ok (numericValue s) else .error ⟨s⟩
      else .error ⟨s⟩ := by
    unfold Atoi numericValue
    simp only [Atoi_digits]
    rfl
  rw [hA]
  unfold numericInt isNumeric
  by_cases h1 : digitsOf s = []
  · simp [h1, Except.isOk, Except.toBool]
  · by_cases h2 : (digitsOf s).all Char.isDigit = true
    · by_cases h3 : -(2 : Int) ^ 63 ≤ numericValue s ∧ numericValue s ≤ (2 : Int) ^ 63 - 1
      · rw [if_neg h1, if_pos h2, if_pos h3]
        simp only [Except.isOk, Except.toBool, true_iff]
        refine ⟨?_, h3⟩
        simp only [Bool.and_eq_true, Bool.not_eq_true', List.isEmpty_eq_false]
        exact ⟨h1, h2⟩
      · rw [if_neg h1, if_pos h2, if_neg h3]
        simp only [Except.isOk, Except.toBool]
        constructor
        · intro h; cases h
        · intro h; exact absurd h.2 h3
    · rw [if_neg h1, if_neg h2]
      simp only [Except.isOk, Except.toBool]
      constructor
      · intro h; cases h
      · intro h
        simp only [Bool.and_eq_true] at h
        exact absurd h.1.2 h2

theorem connRead_fst (buf : Bytes) (resp : Bytes × Option GoError) :
    (connRead buf resp).1 = min buf.length resp.1.length := rfl

theorem connRead_err (buf : Bytes) (resp : Bytes × Option GoError) :
    (connRead buf resp).2.2 = resp.2 := rfl

namespace RootGo

theorem loop_write_err (env : Env) (p q : String) (n : Nat) (w : World) (err : GoError)
    (h : env.write w.writes (env.stdin w.lines).1 = some err) :
    (loop env p q (n + 1) w).trace =
      [.print (str (p ++ q)), .stdinRead (env.stdin w.lines).1 (env.stdin w.lines).2,
       .connWrite (env.stdin w.lines).1 (some err),
       .log (str ("Failed to write to connection: " ++ err.Error))] ∧
    (loop env p q (n + 1) w).outcome = some (.exit 1) := by
  simp [loop, h, emit, Fatalf, osExit]

theorem loop_read_eof (env : Env) (p q : String) (n : Nat) (w : World)
    (h : env.write w.writes (env.stdin w.lines).1 = none)
    (hr : (env.read w.reads).2 = some .EOF) :
    (loop env p q (n + 1) w).trace =
      .print (str (p ++ q)) :: .stdinRead (env.stdin w.lines).1 (env.stdin w.lines).2 ::
       .connWrite (env.stdin w.lines).1 none ::
       .connRead 1024 (connRead (make 1024) (env.read w.reads)).1
          (connRead (make 1024) (env.read w.reads)).2.1 (some .EOF) ::
       .log (str eofNotice) :: (closeAfterLoop env (World.step w)).trace ∧
    (loop env p q (n + 1) w).outcome = (closeAfterLoop env (World.step w)).outcome := by
  simp [loop, h, hr, connRead_err, emit, length_make, World.step]

theorem loop_read_err (env : Env) (p q : String) (n : Nat) (w : World) (err : GoError)
    (h : env.write w.writes (env.stdin w.lines).1 = none)
    (hr : (env.read w.reads).2 = some err) (he : err ≠ .EOF) :
    (loop env p q (n + 1) w).trace =
      [.print (str (p ++ q)), .stdinRead (env.stdin w.lines).1 (env.stdin w.lines).2,
       .connWrite (env.stdin w.lines).1 none,
       .connRead 1024 (connRead (make 1024) (env.read w.reads)).1
          (connRead (make 1024) (env.read w.reads)).2.1 (some err),
       .log (str ("Failed to read: " ++ err.Error))] ∧
    (loop env p q (n + 1) w).outcome = some (.exit 1) := by
  simp [loop, h, hr, he, connRead_err, emit, length_make, Fatalf, osExit]

theorem loop_read_ok (env : Env) (p q : String) (n : Nat) (w : World)
    (h : env.write w.writes (env.stdin w.lines).1 = none)
    (hr : (env.read w.reads).2 = none) :
    (loop env p q (n + 1) w).trace =
      .print (str (p ++ q)) :: .stdinRead (env.stdin w.lines).1 (env.stdin w.lines).2 ::
       .connWrite (env.stdin w.lines).1 none ::
       .connRead 1024 (connRead (make 1024) (env.read w.reads)).1
          (connRead (make 1024) (env.read w.reads)).2.1 none ::
       .log (str "Received: " ++ (connRead (make 1024) (env.read w.reads)).2.1.take
          (connRead (make 1024) (env.read w.reads)).1) :: (loop env p q n (World.step w)).trace ∧
    (loop env p q (n + 1) w).outcome = (loop env p q n (World.step w)).outcome := by
  simp [loop, h, hr, connRead_err, emit, length_make, World.step]


theorem Follows_nil (R : Event → List Event → Option Outcome → Prop) (o : Option Outcome) :
    Follows R [] o := by
  intro i a h; simp at h

theorem Follows_cons (R : Event → List Event → Option Outcome → Prop) (a : Event)
    (t : List Event) (o : Option Outcome) :
    Follows R (a :: t) o ↔ R a t o ∧ Follows R t o := by
  constructor
  · intro h
    refine ⟨by simpa using h 0 a (by simp), fun i b hb => ?_⟩
    simpa using h (i + 1) b (by simpa using hb)
  · rintro ⟨h0, ht⟩ i b hb
    cases i with
    | zero => simp at hb; subst hb; simpa using h0
    | succ j => simpa using ht j b (by simpa using hb)

theorem closeAfterLoop_trace (env : Env) (w : World) :
    (closeAfterLoop env w).trace = (match w.conn with
      | none => []
      | some c => [.connClose (some c) env.close]) ∧
    (closeAfterLoop env w).outcome = some .returned := by
  unfold closeAfterLoop
  cases w.conn <;> cases env.close <;> simp [emit, ret]

theorem closeAfterLoop_follows (env : Env) (w : World) (p : Bytes) (o : Option Outcome) :
    Follows (LoopNext p) (closeAfterLoop env w).trace o := by
  rw [(closeAfterLoop_trace env w).1]
  cases w.conn <;> simp [Follows_nil, Follows_cons, LoopNext]

theorem closeAfterLoop_closes (env : Env) (w : World) :
    ∀ e ∈ (closeAfterLoop env w).trace, ∃ c r, e = Event.connClose c r := by
  rw [(closeAfterLoop_trace env w).1]
  cases w.conn <;> simp

theorem loop_cases (env : Env) (w : World) :
    (∃ err, env.write w.writes (env.stdin w.lines).1 = some err) ∨
    (env.write w.writes (env.stdin w.lines).1 = none ∧ (env.read w.reads).2 = some .EOF) ∨
    (env.write w.writes (env.stdin w.lines).1 = none ∧
      ∃ err, (env.read w.reads).2 = some err ∧ err ≠ .EOF) ∨
    (env.write w.writes (env.stdin w.lines).1 = none ∧ (env.read w.reads).2 = none) := by
  cases hw : env.write w.writes (env.stdin w.lines).1 with
  | some err => exact Or.inl ⟨err, rfl⟩
  | none =>
    cases hr : (env.read w.reads).2 with
    | none => simp
    | some err =>
      by_cases he : err = .EOF
      · subst he; simp
      · simp [he]

theorem loop_head (env : Env) (p q : String) (n : Nat) (w : World) :
    ((loop env p q n w).trace = [] ∧ (loop env p q n w).outcome = none) ∨
    ∃ L e rest, (loop env p q n w).trace = .print (str (p ++ q)) :: .stdinRead L e :: rest := by
  cases n with
  | zero => left; exact ⟨rfl, rfl⟩
  | succ n =>
    right
    rcases loop_cases env w with ⟨err, h⟩ | ⟨h, hr⟩ | ⟨h, err, hr, he⟩ | ⟨h, hr⟩
    · exact ⟨_, _, _, (loop_write_err env p q n w err h).1⟩
    · exact ⟨_, _, _, (loop_read_eof env p q n w h hr).1⟩
    · exact ⟨_, _, _, (loop_read_err env p q n w err h hr he).1⟩
    · exact ⟨_, _, _, (loop_read_ok env p q n w h hr).1⟩

theorem loop_follows (env : Env) (p q : String) (n : Nat) (w : World) :
    Follows (LoopNext (str (p ++ q))) (loop env p q n w).trace (loop env p q n w).outcome := by
  induction n generalizing w with
  | zero => exact Follows_nil _ _
  | succ n ih =>
    rcases loop_cases env w with ⟨err, h⟩ | ⟨h, hr⟩ | ⟨h, err, hr, he⟩ | ⟨h, hr⟩
    · rw [(loop_write_err env p q n w err h).1, (loop_write_err env p q n w err h).2]
      simp [Follows_cons, Follows_nil, LoopNext]
    · rw [(loop_read_eof env p q n w h hr).1, (loop_read_eof env p q n w h hr).2,
        (closeAfterLoop_trace _ _).2]
      simp only [Follows_cons]
      refine ⟨?_, ?_, ?_, ?_, ?_, closeAfterLoop_follows _ _ _ _⟩
      · simp [LoopNext]
      · simp [LoopNext]
      · simp [LoopNext, connRead_fst, length_make]
      · simp only [LoopNext]
        refine ⟨by simp, by simp, by simp, by simp, ?_, ?_⟩
        · intro len k buf _
          exact ⟨by simp, by simpa using closeAfterLoop_closes _ _, trivial⟩
        · intro len k buf err hx hne
          simp only [Event.connRead.injEq, Option.some.injEq] at hx
          exact absurd hx.2.2.2.symm hne
      · simp [LoopNext]
    · rw [(loop_read_err env p q n w err h hr he).1, (loop_read_err env p q n w err h hr he).2]
      simp only [Follows_cons]
      refine ⟨?_, ?_, ?_, ?_, ?_, Follows_nil _ _⟩
      · simp [LoopNext]
      · simp [LoopNext]
      · simp [LoopNext, connRead_fst, length_make]
      · simp only [LoopNext]
        refine ⟨by simp, by simp, by simp, by simp, ?_, ?_⟩
        · intro len k buf hx
          simp only [Event.connRead.injEq, Option.some.injEq] at hx
          exact absurd hx.2.2.2 he
        · intro len k buf err1 hx _
          simp only [Event.connRead.injEq, Option.some.injEq] at hx
          rw [hx.2.2.2]
          exact ⟨rfl, trivial⟩
      · simp [LoopNext]
    · rw [(loop_read_ok env p q n w h hr).1, (loop_read_ok env p q n w h hr).2]
      simp only [Follows_cons]
      refine ⟨?_, ?_, ?_, ?_, ?_, ih _⟩
      · simp [LoopNext]
      · simp [LoopNext]
      · simp [LoopNext, connRead_fst, length_make]
      · rcases loop_head env p q n (World.step w) with ⟨h0, h1⟩ | ⟨L, e, rest, h0⟩
        · simp [LoopNext, h0, h1]
        · simp [LoopNext, h0]
      · simp [LoopNext]

theorem run_no_host (env : Env) (flags : Flags) (fuel : Nat) (w : World) :
    run env flags [] fuel w = Fatalf "No host specified." w := by
  simp [run]

theorem run_bad_port (env : Env) (flags : Flags) (args : List String) (fuel : Nat) (w : World)
    (h1 : 2 ≤ args.length) (h2 : (Atoi (args.getD 1 "")).isOk = false) :
    run env flags args fuel w = Fatalf "Invalid port specified." w := by
  have h0 : ¬ args.length < 1 := by omega
  cases hA : Atoi (args.getD 1 "") with
  | error e => simp [run, h0, h1, hA, -List.getD_eq_getElem?_getD]
  | ok v => simp [hA, Except.isOk, Except.toBool, -List.getD_eq_getElem?_getD] at h2

theorem run_dial_err (env : Env) (flags : Flags) (args : List String) (fuel : Nat) (w : World)
    (err : GoError) (h : argsOk args)
    (hd : env.dial (hostOf args ++ ":" ++ portOf flags args) flags.insecure = some err) :
    (run env flags args fuel w).trace =
      [.log (str ("Trying " ++ hostOf args ++ "...")),
       .dial (hostOf args ++ ":" ++ portOf flags args) flags.insecure (some err),
       .log (str ("Failed to dial: " ++ err.Error))] ∧
    (run env flags args fuel w).outcome = some (.exit 1) := by
  obtain ⟨h1, h2⟩ := h
  have h0 : ¬ args.length < 1 := by omega
  by_cases h3 : 2 ≤ args.length
  · cases hA : Atoi (args.getD 1 "") with
    | error e => exact absurd (h2 h3) (by rw [hA]; simp [Except.isOk, Except.toBool])
    | ok v =>
      simp only [hostOf, portOf, ge_iff_le, h3, if_true] at hd
      simp [run, h0, h3, hA, hd, emit, Fatalf, osExit, hostOf, portOf, -List.getD_eq_getElem?_getD]
  · simp only [hostOf, portOf, ge_iff_le, h3, if_false] at hd
    simp [run, h0, h3, hd, emit, Fatalf, osExit, hostOf, portOf, -List.getD_eq_getElem?_getD]

theorem run_dial_ok (env : Env) (flags : Flags) (args : List String) (fuel : Nat) (w : World)
    (h : argsOk args)
    (hd : env.dial (hostOf args ++ ":" ++ portOf flags args) flags.insecure = none) :
    (run env flags args fuel w).trace =
      .log (str ("Trying " ++ hostOf args ++ "...")) ::
       .dial (hostOf args ++ ":" ++ portOf flags args) flags.insecure none ::
       (banner flags args ++ (loop env flags.prompt flags.padding fuel
          { w with conn := some ⟨hostOf args ++ ":" ++ portOf flags args, flags.insecure⟩ }).trace) ∧
    (run env flags args fuel w).outcome = (loop env flags.prompt flags.padding fuel
          { w with conn := some ⟨hostOf args ++ ":" ++ portOf flags args, flags.insecure⟩ }).outcome := by
  obtain ⟨h1, h2⟩ := h
  have h0 : ¬ args.length < 1 := by omega
  by_cases h3 : 2 ≤ args.length
  · cases hA : Atoi (args.getD 1 "") with
    | error e => exact absurd (h2 h3) (by rw [hA]; simp [Except.isOk, Except.toBool])
    | ok v =>
      simp only [hostOf, portOf, ge_iff_le, h3, if_true] at hd
      cases hc : flags.certificate <;>
        simp [run, h0, h3, hA, hd, emit, hostOf, portOf, banner, hc, -List.getD_eq_getElem?_getD]
  · simp only [hostOf, portOf, ge_iff_le, h3, if_false] at hd
    cases hc : flags.certificate <;>
      simp [run, h0, h3, hd, emit, hostOf, portOf, banner, hc, -List.getD_eq_getElem?_getD]

theorem loop_dials (env : Env) (p q : String) (n : Nat) (w : World) :
    dials (loop env p q n w).trace = [] := by
  induction n generalizing w with
  | zero => rfl
  | succ n ih =>
    rcases loop_cases env w with ⟨err, h⟩ | ⟨h, hr⟩ | ⟨h, err, hr, he⟩ | ⟨h, hr⟩
    · rw [(loop_write_err env p q n w err h).1]; simp [dials]
    · rw [(loop_read_eof env p q n w h hr).1, (closeAfterLoop_trace _ _).1]
      cases (World.step w).conn <;> simp [dials]
    · rw [(loop_read_err env p q n w err h hr he).1]; simp [dials]
    · rw [(loop_read_ok env p q n w h hr).1]
      have := ih (World.step w)
      simp only [dials] at this ⊢
      simp [this]

theorem banner_dials (flags : Flags) (args : List String) : dials (banner flags args) = [] := by
  cases hc : flags.certificate <;> simp [banner, dials, hc]

theorem dials_append (a b : List Event) : dials (a ++ b) = dials a ++ dials b := by
  simp [dials]

theorem not_argsOk (args : List String) (h : ¬ argsOk args) :
    args = [] ∨ (2 ≤ args.length ∧ (Atoi (args.getD 1 "")).isOk = false) := by
  cases args with
  | nil => exact Or.inl rfl
  | cons a rest =>
    right
    by_cases h2 : 2 ≤ (a :: rest).length
    · refine ⟨h2, ?_⟩
      by_contra hc
      exact h ⟨by simp, fun _ => by simpa using hc⟩
    · exact absurd ⟨by simp, fun h3 => absurd h3 h2⟩ h

theorem run_not_ok (env : Env) (flags : Flags) (args : List String) (fuel : Nat) (w : World)
    (h : ¬ argsOk args) :
    ∃ msg, run env flags args fuel w = Fatalf msg w := by
  rcases not_argsOk args h with h0 | ⟨h1, h2⟩
  · subst h0; exact ⟨_, run_no_host env flags fuel w⟩
  · exact ⟨_, run_bad_port env flags args fuel w h1 h2⟩

theorem run_dials_ok (env : Env) (flags : Flags) (args : List String) (fuel : Nat) (w : World)
    (h : argsOk args) :
    dials (run env flags args fuel w).trace = [hostOf args ++ ":" ++ portOf flags args] := by
  cases hd : env.dial (hostOf args ++ ":" ++ portOf flags args) flags.insecure with
  | some err =>
    rw [(run_dial_err env flags args fuel w err h hd).1]
    simp [dials]
  | none =>
    rw [(run_dial_ok env flags args fuel w h hd).1]
    have h1 := loop_dials env flags.prompt flags.padding fuel
      { w with conn := some ⟨hostOf args ++ ":" ++ portOf flags args, flags.insecure⟩ }
    have h2 := banner_dials flags args
    rw [show ∀ (a b : Event) (l : List Event), a :: b :: l = [a, b] ++ l from fun _ _ _ => rfl,
      dials_append, dials_append, h1, h2]
    simp [dials]

theorem run_head_ok (env : Env) (flags : Flags) (args : List String) (fuel : Nat) (w : World)
    (h : argsOk args) :
    (run env flags args fuel w).trace[0]? = some (.log (str ("Trying " ++ hostOf args ++ "..."))) ∧
    (run env flags args fuel w).trace[1]? =
      some (.dial (hostOf args ++ ":" ++ portOf flags args) flags.insecure
        (env.dial (hostOf args ++ ":" ++ portOf flags args) flags.insecure)) := by
  cases hd : env.dial (hostOf args ++ ":" ++ portOf flags args) flags.insecure with
  | some err => rw [(run_dial_err env flags args fuel w err h hd).1]; simp
  | none => rw [(run_dial_ok env flags args fuel w h hd).1]; simp

theorem argsOk_iff (args : List String) :
    argsOk args ↔ (1 ≤ args.length ∧ (2 ≤ args.length → numericInt (args.getD 1 ""))) := by
  unfold argsOk
  constructor
  · intro h; exact ⟨h.1, fun h2 => (Atoi_isOk_iff _).1 (h.2 h2)⟩
  · intro h; exact ⟨h.1, fun h2 => (Atoi_isOk_iff _).2 (h.2 h2)⟩

/-- C1, refuted as stated: the second argument `9223372036854775808` is numeric
(decimal digits only), yet `run` logs `Invalid port specified.`, ends with
status 1 and dials nothing. -/
theorem C1_numeric_port_counterexample :
    isNumeric "9223372036854775808" = true ∧
    (run (scriptEnv [] [] none) Flags.default ["example.com", "9223372036854775808"] 1
        World.init).trace = [.log (str "Invalid port specified.")] ∧
    dials (run (scriptEnv [] [] none) Flags.default ["example.com", "9223372036854775808"] 1
        World.init).trace = [] ∧
    (run (scriptEnv [] [] none) Flags.default ["example.com", "9223372036854775808"] 1
        World.init).outcome = some (.exit 1) := by
  refine ⟨by decide, by decide, by decide, by decide⟩

/-- C1, amended: `run` dials if and only if there is a host and the second
positional argument, if any, is numeric (an optional sign and decimal digits)
with a value that fits a signed 64-bit integer; it then dials exactly once,
the address `args[0] ++ ":" ++ port`, where `port` is `args[1]` when given
and the value of the `--port` flag otherwise.  In the other case `run` ends
through `log.Fatalf` with status 1 and dials nothing. -/
theorem C1_run_dials_once (env : Env) (flags : Flags) (args : List String) (fuel : Nat)
    (w : World) :
    (dials (run env flags args fuel w).trace ≠ [] ↔
      (1 ≤ args.length ∧ (2 ≤ args.length → numericInt (args.getD 1 "")))) ∧
    ((1 ≤ args.length ∧ (2 ≤ args.length → numericInt (args.getD 1 ""))) →
      dials (run env flags args fuel w).trace =
        [args.getD 0 "" ++ ":" ++ (if args.length ≥ 2 then args.getD 1 "" else flags.port)]) ∧
    (¬ (1 ≤ args.length ∧ (2 ≤ args.length → numericInt (args.getD 1 ""))) →
      dials (run env flags args fuel w).trace = [] ∧
      (run env flags args fuel w).outcome = some (.exit 1) ∧
      ((run env flags args fuel w).outcome.map Outcome.status) = some 1) := by
  rw [← argsOk_iff]
  have hok : argsOk args →
      dials (run env flags args fuel w).trace =
        [args.getD 0 "" ++ ":" ++ (if args.length ≥ 2 then args.getD 1 "" else flags.port)] :=
    fun h => run_dials_ok env flags args fuel w h
  have hbad : ¬ argsOk args →
      dials (run env flags args fuel w).trace = [] ∧
      (run env flags args fuel w).outcome = some (.exit 1) ∧
      ((run env flags args fuel w).outcome.map Outcome.status) = some 1 := by
    intro h
    obtain ⟨msg, hm⟩ := run_not_ok env flags args fuel w h
    rw [hm]
    simp [Fatalf, emit, osExit, dials, Outcome.status]
  refine ⟨?_, hok, hbad⟩
  constructor
  · intro hne
    by_contra hc
    exact hne (hbad hc).1
  · intro h
    rw [hok h]
    simp

/-- C1 amended, with a port given: `8443` and `-7` are dialed as they stand;
`https` (not numeric) and `99999999999999999999` (numeric, too large for an
`int`) end `run` with status 1 and no dial; with the host alone the port of
the flag is dialed. -/
theorem C1_run_dials_once_witness :
    dials (run (scriptEnv [] [] none) Flags.default ["example.com", "8443"] 1 World.init).trace =
      ["example.com:8443"] ∧
    dials (run (scriptEnv [] [] none) Flags.default ["example.com", "-7"] 1 World.init).trace =
      ["example.com:-7"] ∧
    dials (run (scriptEnv [] [] none) Flags.default ["example.com"] 1 World.init).trace =
      ["example.com:443"] ∧
    (dials (run (scriptEnv [] [] none) Flags.default ["example.com", "https"] 1
        World.init).trace = [] ∧
      (run (scriptEnv [] [] none) Flags.default ["example.com", "https"] 1
        World.init).outcome = some (.exit 1) ∧
      (run (scriptEnv [] [] none) Flags.default ["example.com", "https"] 1
        World.init).outcome.map Outcome.status = some 1) ∧
    (dials (run (scriptEnv [] [] none) Flags.default ["example.com", "99999999999999999999"] 1
        World.init).trace = [] ∧
      (run (scriptEnv [] [] none) Flags.default ["example.com", "99999999999999999999"] 1
        World.init).outcome = some (.exit 1) ∧
      (run (scriptEnv [] [] none) Flags.default ["example.com", "99999999999999999999"] 1
        World.init).outcome.map Outcome.status = some 1) :=
  ⟨(C1_run_dials_once (scriptEnv [] [] none) Flags.default ["example.com", "8443"] 1
      World.init).2.1 (by decide),
   (C1_run_dials_once (scriptEnv [] [] none) Flags.default ["example.com", "-7"] 1
      World.init).2.1 (by decide),
   (C1_run_dials_once (scriptEnv [] [] none) Flags.default ["example.com"] 1
      World.init).2.1 (by decide),
   (C1_run_dials_once (scriptEnv [] [] none) Flags.default ["example.com", "https"] 1
      World.init).2.2 (by decide),
   (C1_run_dials_once (scriptEnv [] [] none) Flags.default ["example.com", "99999999999999999999"] 1
      World.init).2.2 (by decide)⟩

theorem Follows_banner (flags : Flags) (args : List String) (p : Bytes) (t : List Event)
    (o : Option Outcome) (h : Follows (LoopNext p) t o) :
    Follows (LoopNext p) (banner flags args ++ t) o := by
  cases hc : flags.certificate <;> simp [banner, hc, Follows_cons, LoopNext, h]

theorem run_follows (env : Env) (flags : Flags) (args : List String) (fuel : Nat) (w : World) :
    Follows (LoopNext (str (flags.prompt ++ flags.padding)))
      (run env flags args fuel w).trace (run env flags args fuel w).outcome := by
  by_cases h : argsOk args
  · cases hd : env.dial (hostOf args ++ ":" ++ portOf flags args) flags.insecure with
    | some err =>
      rw [(run_dial_err env flags args fuel w err h hd).1]
      simp [Follows_cons, Follows_nil, LoopNext]
    | none =>
      rw [(run_dial_ok env flags args fuel w h hd).1, (run_dial_ok env flags args fuel w h hd).2]
      simp only [Follows_cons]
      refine ⟨by simp [LoopNext], by simp [LoopNext], Follows_banner _ _ _ _ _ (loop_follows _ _ _ _ _)⟩
  · obtain ⟨msg, hm⟩ := run_not_ok env flags args fuel w h
    rw [hm]
    simp [Fatalf, emit, osExit, Follows_cons, Follows_nil, LoopNext]

theorem loop_written (env : Env) (p q : String) (n : Nat) (w : World) :
    dataWritten (loop env p q n w).trace = linesRead (loop env p q n w).trace := by
  induction n generalizing w with
  | zero => rfl
  | succ n ih =>
    rcases loop_cases env w with ⟨err, h⟩ | ⟨h, hr⟩ | ⟨h, err, hr, he⟩ | ⟨h, hr⟩
    · rw [(loop_write_err env p q n w err h).1]; simp [dataWritten, linesRead]
    · rw [(loop_read_eof env p q n w h hr).1, (closeAfterLoop_trace _ _).1]
      cases (World.step w).conn <;> simp [dataWritten, linesRead]
    · rw [(loop_read_err env p q n w err h hr he).1]; simp [dataWritten, linesRead]
    · rw [(loop_read_ok env p q n w h hr).1]
      have := ih (World.step w)
      simp only [dataWritten, linesRead] at this ⊢
      simp [this]

theorem run_written (env : Env) (flags : Flags) (args : List String) (fuel : Nat) (w : World) :
    dataWritten (run env flags args fuel w).trace = linesRead (run env flags args fuel w).trace := by
  by_cases h : argsOk args
  · cases hd : env.dial (hostOf args ++ ":" ++ portOf flags args) flags.insecure with
    | some err =>
      rw [(run_dial_err env flags args fuel w err h hd).1]
      simp [dataWritten, linesRead]
    | none =>
      rw [(run_dial_ok env flags args fuel w h hd).1]
      have := loop_written env flags.prompt flags.padding fuel
        { w with conn := some ⟨hostOf args ++ ":" ++ portOf flags args, flags.insecure⟩ }
      simp only [dataWritten, linesRead] at this ⊢
      cases hc : flags.certificate <;> simp [banner, hc, this]
  · obtain ⟨msg, hm⟩ := run_not_ok env flags args fuel w h
    rw [hm]
    simp [Fatalf, emit, osExit, dataWritten, linesRead]

/-- C3: in the trace of `run`, every line `L` returned by the read on standard
input is followed at once by a `conn.Write` whose data is exactly `L`, and
the sequence of byte strings written is the sequence of lines read: one
write per line, nothing trimmed, added or re-encoded. -/
theorem C3_line_written_verbatim (env : Env) (flags : Flags) (args : List String) (fuel : Nat)
    (w : World) :
    (∀ i L e, (run env flags args fuel w).trace[i]? = some (.stdinRead L e) →
      ∃ r, (run env flags args fuel w).trace[i + 1]? = some (.connWrite L r)) ∧
    dataWritten (run env flags args fuel w).trace = linesRead (run env flags args fuel w).trace := by
  refine ⟨fun i L e h => ?_, run_written env flags args fuel w⟩
  obtain ⟨r, hr⟩ := (run_follows env flags args fuel w i _ h).1 L e rfl
  exact ⟨r, by simpa using hr⟩

/-- C3 on a session in which the user types `hi` and a newline: the write
carries these three bytes. -/
theorem C3_line_written_verbatim_witness :
    (run (scriptEnv [(str "hi\n", none)] [(str "yo", none)] none) Flags.default
        ["example.com"] 1 World.init).trace[5]? = some (.stdinRead (str "hi\n") none) ∧
    ∃ r, (run (scriptEnv [(str "hi\n", none)] [(str "yo", none)] none) Flags.default
        ["example.com"] 1 World.init).trace[5 + 1]? = some (.connWrite (str "hi\n") r) :=
  ⟨by decide, (C3_line_written_verbatim (scriptEnv [(str "hi\n", none)] [(str "yo", none)] none)
      Flags.default ["example.com"] 1 World.init).1 5 (str "hi\n") none (by decide)⟩

/-- C2, refuted as stated: the second argument `0` is numeric and lies outside
1..65535, yet `run` does not reject it: it dials `example.com:0` and goes on
to the loop instead of ending with status 1 before the dial. -/
theorem C2_port_range_counterexample :
    (Atoi "0").toOption = some 0 ∧ ¬ (1 ≤ (0 : Int) ∧ (0 : Int) ≤ 65535) ∧
    dials (run (scriptEnv [] [] none) Flags.default ["example.com", "0"] 0 World.init).trace =
      ["example.com:0"] ∧
    (run (scriptEnv [] [] none) Flags.default ["example.com", "0"] 0 World.init).outcome ≠
      some (.exit 1) := by
  refine ⟨by decide, by decide, by decide, by decide⟩

/-- C2, amended: `run` rejects an explicitly supplied port `s` exactly when
`strconv.Atoi` fails on it: it then logs `Invalid port specified.` and ends
with status 1 without dialing.  Every `s` that `Atoi` parses is accepted
whatever its value (there is no range check): `run` logs `Trying ...` and
dials `host:s`. -/
theorem C2_port_numeric_only (env : Env) (flags : Flags) (host s : String)
    (rest : List String) (fuel : Nat) (w : World) :
    ((Atoi s).isOk = false →
      (run env flags (host :: s :: rest) fuel w).trace = [.log (str "Invalid port specified.")] ∧
      (run env flags (host :: s :: rest) fuel w).outcome = some (.exit 1) ∧
      dials (run env flags (host :: s :: rest) fuel w).trace = []) ∧
    ((Atoi s).isOk = true →
      (run env flags (host :: s :: rest) fuel w).trace[0]? =
        some (.log (str ("Trying " ++ host ++ "..."))) ∧
      (run env flags (host :: s :: rest) fuel w).trace[1]? =
        some (.dial (host ++ ":" ++ s) flags.insecure (env.dial (host ++ ":" ++ s) flags.insecure)) ∧
      dials (run env flags (host :: s :: rest) fuel w).trace = [host ++ ":" ++ s]) := by
  constructor
  · intro h
    rw [run_bad_port env flags (host :: s :: rest) fuel w (by simp) (by simpa using h)]
    simp [Fatalf, emit, osExit, dials]
  · intro h
    have hok : argsOk (host :: s :: rest) := ⟨by simp, fun _ => by simpa using h⟩
    have h1 := run_head_ok env flags (host :: s :: rest) fuel w hok
    have h2 := run_dials_ok env flags (host :: s :: rest) fuel w hok
    simp only [hostOf, portOf] at h1 h2
    exact ⟨by simpa using h1.1, by simpa using h1.2, by simpa using h2⟩

/-- C2 amended, at the ports `0`, `-1` and `70000`: each is dialed. -/
theorem C2_port_numeric_only_witness :
    dials (run (scriptEnv [] [] none) Flags.default ["example.com", "0"] 1 World.init).trace =
      ["example.com:0"] ∧
    dials (run (scriptEnv [] [] none) Flags.default ["example.com", "-1"] 1 World.init).trace =
      ["example.com:-1"] ∧
    dials (run (scriptEnv [] [] none) Flags.default ["example.com", "70000"] 1 World.init).trace =
      ["example.com:70000"] ∧
    (run (scriptEnv [] [] none) Flags.default ["example.com", "http"] 1 World.init).trace =
      [.log (str "Invalid port specified.")] :=
  ⟨((C2_port_numeric_only (scriptEnv [] [] none) Flags.default "example.com" "0" [] 1
      World.init).2 (by decide)).2.2,
   ((C2_port_numeric_only (scriptEnv [] [] none) Flags.default "example.com" "-1" [] 1
      World.init).2 (by decide)).2.2,
   ((C2_port_numeric_only (scriptEnv [] [] none) Flags.default "example.com" "70000" [] 1
      World.init).2 (by decide)).2.2,
   ((C2_port_numeric_only (scriptEnv [] [] none) Flags.default "example.com" "http" [] 1
      World.init).1 (by decide)).1⟩

theorem loop_reads (env : Env) (p q : String) (n : Nat) (w : World) :
    ((loop env p q n w).trace.filter Event.isRead).length =
      ((loop env p q n w).trace.filter Event.isOkWrite).length := by
  induction n generalizing w with
  | zero => rfl
  | succ n ih =>
    rcases loop_cases env w with ⟨err, h⟩ | ⟨h, hr⟩ | ⟨h, err, hr, he⟩ | ⟨h, hr⟩
    · rw [(loop_write_err env p q n w err h).1]; simp [Event.isRead, Event.isOkWrite]
    · rw [(loop_read_eof env p q n w h hr).1, (closeAfterLoop_trace _ _).1]
      cases (World.step w).conn <;> simp [Event.isRead, Event.isOkWrite]
    · rw [(loop_read_err env p q n w err h hr he).1]; simp [Event.isRead, Event.isOkWrite]
    · rw [(loop_read_ok env p q n w h hr).1]
      simp [Event.isRead, Event.isOkWrite, ih (World.step w)]

theorem run_reads (env : Env) (flags : Flags) (args : List String) (fuel : Nat) (w : World) :
    ((run env flags args fuel w).trace.filter Event.isRead).length =
      ((run env flags args fuel w).trace.filter Event.isOkWrite).length := by
  by_cases h : argsOk args
  · cases hd : env.dial (hostOf args ++ ":" ++ portOf flags args) flags.insecure with
    | some err =>
      rw [(run_dial_err env flags args fuel w err h hd).1]
      simp [Event.isRead, Event.isOkWrite]
    | none =>
      rw [(run_dial_ok env flags args fuel w h hd).1]
      have := loop_reads env flags.prompt flags.padding fuel
        { w with conn := some ⟨hostOf args ++ ":" ++ portOf flags args, flags.insecure⟩ }
      cases hc : flags.certificate <;> simp [banner, hc, this, Event.isRead, Event.isOkWrite]
  · obtain ⟨msg, hm⟩ := run_not_ok env flags args fuel w h
    rw [hm]
    simp [Fatalf, emit, osExit, Event.isRead, Event.isOkWrite]

/-- C4: in the trace of `run`, a successful `conn.Write` is followed at once by
one `conn.Read` on a buffer of 1024 bytes, which returns `n ≤ 1024`; when
that read reports no error, the next event is the log of `Received: `
followed by the first `n` bytes of the buffer, and what comes after it, if
anything, is the prompt and the next read on standard input, not another
connection read.  There are as many connection reads as successful writes. -/
theorem C4_one_read_of_1024 (env : Env) (flags : Flags) (args : List String) (fuel : Nat)
    (w : World) :
    (∀ i d, (run env flags args fuel w).trace[i]? = some (.connWrite d none) →
      ∃ n buf r, (run env flags args fuel w).trace[i + 1]? = some (.connRead 1024 n buf r) ∧
        n ≤ 1024 ∧
        (r = none →
          (run env flags args fuel w).trace[i + 2]? =
            some (.log (str "Received: " ++ buf.take n)) ∧
          ((run env flags args fuel w).trace[i + 3]? = none ∨
            ((run env flags args fuel w).trace[i + 3]? =
                some (.print (str (flags.prompt ++ flags.padding))) ∧
              ∃ L e, (run env flags args fuel w).trace[i + 4]? = some (.stdinRead L e))))) ∧
    ((run env flags args fuel w).trace.filter Event.isRead).length =
      ((run env flags args fuel w).trace.filter Event.isOkWrite).length := by
  refine ⟨fun i d h => ?_, run_reads env flags args fuel w⟩
  obtain ⟨n, buf, r, hr, hn⟩ := (run_follows env flags args fuel w i _ h).2.1 d rfl
  have hr1 : (run env flags args fuel w).trace[i + 1]? = some (.connRead 1024 n buf r) := by
    simpa using hr
  refine ⟨n, buf, r, hr1, hn, fun hnone => ?_⟩
  subst hnone
  obtain ⟨_, h2, h3⟩ := (run_follows env flags args fuel w (i + 1) _ hr1).2.2.2.1 1024 n buf rfl
  refine ⟨by simpa [Nat.add_assoc] using h2, ?_⟩
  rcases h3 with ⟨h3, _⟩ | ⟨h3, L, e, h4⟩
  · left
    simpa [Nat.add_assoc] using h3
  · right
    exact ⟨by simpa [Nat.add_assoc] using h3, L, e, by simpa [Nat.add_assoc] using h4⟩

/-- C4 on a session in which the server answers `yo` to the first line. -/
theorem C4_one_read_of_1024_witness :
    (run (scriptEnv [(str "hi\n", none)] [(str "yo", none)] none) Flags.default
        ["example.com"] 1 World.init).trace[6]? = some (.connWrite (str "hi\n") none) ∧
    (∃ n buf r, (run (scriptEnv [(str "hi\n", none)] [(str "yo", none)] none) Flags.default
        ["example.com"] 1 World.init).trace[6 + 1]? = some (.connRead 1024 n buf r) ∧
        n ≤ 1024 ∧
        (r = none →
          (run (scriptEnv [(str "hi\n", none)] [(str "yo", none)] none) Flags.default
              ["example.com"] 1 World.init).trace[6 + 2]? =
            some (.log (str "Received: " ++ buf.take n)) ∧
          ((run (scriptEnv [(str "hi\n", none)] [(str "yo", none)] none) Flags.default
              ["example.com"] 1 World.init).trace[6 + 3]? = none ∨
            ((run (scriptEnv [(str "hi\n", none)] [(str "yo", none)] none) Flags.default
                ["example.com"] 1 World.init).trace[6 + 3]? =
                some (.print (str (Flags.default.prompt ++ Flags.default.padding))) ∧
              ∃ L e, (run (scriptEnv [(str "hi\n", none)] [(str "yo", none)] none) Flags.default
                ["example.com"] 1 World.init).trace[6 + 4]? = some (.stdinRead L e))))) ∧
    (run (scriptEnv [(str "hi\n", none)] [(str "yo", none)] none) Flags.default
        ["example.com"] 1 World.init).trace[8]? = some (.log (str "Received: yo")) :=
  And.intro (by decide) (And.intro
    ((C4_one_read_of_1024 (scriptEnv [(str "hi\n", none)] [(str "yo", none)] none)
      Flags.default ["example.com"] 1 World.init).1 6 (str "hi\n") (by decide)) (by decide))


theorem loop_read_pos (env : Env) (p q : String) (n : Nat) (w : World) (ht : TLSReads env) :
    ∀ e ∈ (loop env p q n w).trace, ∀ len k buf, e = Event.connRead len k buf none → 0 < k := by
  induction n generalizing w with
  | zero => simp [loop]
  | succ n ih =>
    rcases loop_cases env w with ⟨err, h⟩ | ⟨h, hr⟩ | ⟨h, err, hr, he⟩ | ⟨h, hr⟩
    · rw [(loop_write_err env p q n w err h).1]; simp
    · rw [(loop_read_eof env p q n w h hr).1, (closeAfterLoop_trace _ _).1]
      cases (World.step w).conn <;> simp
    · rw [(loop_read_err env p q n w err h hr he).1]; simp
    · rw [(loop_read_ok env p q n w h hr).1]
      intro e he len k buf hk
      have hdata : 0 < (env.read w.reads).1.length :=
        List.length_pos.2 (ht w.reads hr)
      simp only [List.mem_cons] at he
      rcases he with he | he | he | he | he | he
      · rw [he] at hk; cases hk
      · rw [he] at hk; cases hk
      · rw [he] at hk; cases hk
      · rw [he] at hk
        simp only [Event.connRead.injEq] at hk
        rw [← hk.2.1, connRead_fst, length_make]
        omega
      · rw [he] at hk; cases hk
      · exact ih (World.step w) e he len k buf hk

theorem run_read_pos (env : Env) (flags : Flags) (args : List String) (fuel : Nat) (w : World)
    (ht : TLSReads env) :
    ∀ e ∈ (run env flags args fuel w).trace, ∀ len k buf,
      e = Event.connRead len k buf none → 0 < k := by
  by_cases h : argsOk args
  · cases hd : env.dial (hostOf args ++ ":" ++ portOf flags args) flags.insecure with
    | some err =>
      rw [(run_dial_err env flags args fuel w err h hd).1]
      simp
    | none =>
      rw [(run_dial_ok env flags args fuel w h hd).1]
      intro e he len k buf hk
      simp only [List.mem_cons, List.mem_append] at he
      rcases he with he | he | he | he
      · rw [he] at hk; cases hk
      · rw [he] at hk; cases hk
      · rw [hk] at he
        cases hc : flags.certificate <;> simp [banner, hc] at he
      · exact loop_read_pos env flags.prompt flags.padding fuel _ ht e he len k buf hk
  · obtain ⟨msg, hm⟩ := run_not_ok env flags args fuel w h
    rw [hm]
    simp [Fatalf, emit, osExit]

/-- C5, refuted as stated: the first connection read returns zero bytes
together with an error that is not `io.EOF` (the peer resets the
connection); the loop does not reach `CLOSED_EOF`: no EOF notice is logged,
`Failed to read: ...` is, and the process ends with status 1. -/
theorem C5_zero_read_counterexample :
    (∃ buf, (run (scriptEnv [(str "hi\n", none)]
        [([], some (.other "connection reset by peer"))] none) Flags.default ["example.com"] 1
        World.init).trace[7]? =
          some (.connRead 1024 0 buf (some (.other "connection reset by peer")))) ∧
    (run (scriptEnv [(str "hi\n", none)]
        [([], some (.other "connection reset by peer"))] none) Flags.default ["example.com"] 1
        World.init).trace.drop 8 =
          [.log (str "Failed to read: connection reset by peer")] ∧
    Event.log (str eofNotice) ∉
      (run (scriptEnv [(str "hi\n", none)]
        [([], some (.other "connection reset by peer"))] none) Flags.default ["example.com"] 1
        World.init).trace ∧
    (run (scriptEnv [(str "hi\n", none)]
        [([], some (.other "connection reset by peer"))] none) Flags.default ["example.com"] 1
        World.init).outcome = some (.exit 1) := by
  refine ⟨⟨_, rfl⟩, by decide, by decide, by decide⟩

/-- C5, amended: a connection read that reports `io.EOF`, whatever its byte
count, ends the loop: the EOF notice is the next event (no `Received:` line
for that read), only the closing of the connection follows, and `run`
returns.  The byte count alone decides nothing: a read that reports another
error, with zero bytes or more, is fatal (`Failed to read: ...`, status 1, no
EOF notice), and a read that reports no error carries at least one byte, as
`(*tls.Conn).Read` guarantees on the 1024-byte buffer. -/
theorem C5_eof_ends_loop (env : Env) (flags : Flags) (args : List String) (fuel : Nat)
    (w : World) :
    (∀ i len n buf, (run env flags args fuel w).trace[i]? = some (.connRead len n buf (some .EOF)) →
      (run env flags args fuel w).trace[i + 1]? = some (.log (str eofNotice)) ∧
      (∀ e ∈ (run env flags args fuel w).trace.drop (i + 2), ∃ c r, e = Event.connClose c r) ∧
      (run env flags args fuel w).outcome = some .returned) ∧
    (∀ i len n buf err,
      (run env flags args fuel w).trace[i]? = some (.connRead len n buf (some err)) →
      err ≠ GoError.EOF →
      (run env flags args fuel w).trace.drop (i + 1) =
        [.log (str ("Failed to read: " ++ err.Error))] ∧
      (run env flags args fuel w).outcome = some (.exit 1)) ∧
    (TLSReads env → ∀ (i len n : Nat) (buf : Bytes),
      (run env flags args fuel w).trace[i]? = some (Event.connRead len n buf none) → 0 < n) := by
  refine ⟨?_, ?_, ?_⟩
  · intro i len n buf h
    obtain ⟨h1, h2, h3⟩ := (run_follows env flags args fuel w i _ h).2.2.2.2.1 len n buf rfl
    refine ⟨by simpa using h1, ?_, h3⟩
    simpa [Nat.add_comm 1 (i + 1)] using h2
  · intro i len n buf err h hne
    exact (run_follows env flags args fuel w i _ h).2.2.2.2.2 len n buf err rfl hne
  · intro ht i len n buf h
    exact run_read_pos env flags args fuel w ht _ (List.getElem?_mem h) len n buf rfl

/-- C5 amended, on a session whose first connection read delivers `yo` and
whose second reports `io.EOF`, and on one whose first connection read
reports a reset of the connection. -/
theorem C5_eof_ends_loop_witness :
    ((run (scriptEnv [(str "hi\n", none), (str "ho\n", none)] [(str "yo", none)] none)
        Flags.default ["example.com"] 3 World.init).trace[12 + 1]? =
          some (.log (str eofNotice)) ∧
      (∀ e ∈ (run (scriptEnv [(str "hi\n", none), (str "ho\n", none)] [(str "yo", none)] none)
        Flags.default ["example.com"] 3 World.init).trace.drop (12 + 2),
          ∃ c r, e = Event.connClose c r) ∧
      (run (scriptEnv [(str "hi\n", none), (str "ho\n", none)] [(str "yo", none)] none)
        Flags.default ["example.com"] 3 World.init).outcome = some .returned) ∧
    ((run (scriptEnv [(str "hi\n", none)] [([], some (.other "connection reset by peer"))] none)
        Flags.default ["example.com"] 3 World.init).trace.drop (7 + 1) =
          [.log (str ("Failed to read: " ++ (GoError.other "connection reset by peer").Error))] ∧
      (run (scriptEnv [(str "hi\n", none)] [([], some (.other "connection reset by peer"))] none)
        Flags.default ["example.com"] 3 World.init).outcome = some (.exit 1)) ∧
    0 < 2 :=
  ⟨(C5_eof_ends_loop (scriptEnv [(str "hi\n", none), (str "ho\n", none)] [(str "yo", none)] none)
      Flags.default ["example.com"] 3 World.init).1 12 1024 0 _ rfl,
   (C5_eof_ends_loop
      (scriptEnv [(str "hi\n", none)] [([], some (.other "connection reset by peer"))] none)
      Flags.default ["example.com"] 3 World.init).2.1 7 1024 0 _
      (.other "connection reset by peer") rfl (by decide),
   (C5_eof_ends_loop (scriptEnv [(str "hi\n", none), (str "ho\n", none)] [(str "yo", none)] none)
      Flags.default ["example.com"] 3 World.init).2.2
      (fun k => by
        cases k with
        | zero => intro _; decide
        | succ j => intro h; simp [scriptEnv] at h)
      7 1024 2 _ rfl⟩

theorem calm_cons (a : Event) (l : List Event) (ha : a.calm = true)
    (hl : ∀ e ∈ l, e.calm = true) : ∀ e ∈ a :: l, e.calm = true := by
  intro e he
  rcases List.mem_cons.1 he with h | h
  · rw [h]; exact ha
  · exact hl e h

theorem loop_end (env : Env) (p q : String) (n : Nat) (w : World) (c : Conn)
    (hc : w.conn = some c) :
    ((loop env p q n w).outcome = none ∧ ∀ e ∈ (loop env p q n w).trace, e.calm = true) ∨
    (∃ pre len k buf, (loop env p q n w).trace =
        pre ++ [.connRead len k buf (some .EOF), .log (str eofNotice),
          .connClose (some c) env.close] ∧
      (∀ e ∈ pre, e.calm = true) ∧ (loop env p q n w).outcome = some .returned) ∨
    (∃ pre x msg, (loop env p q n w).trace = pre ++ [x, .log msg] ∧
      (∀ e ∈ pre, e.calm = true) ∧ x.isFailure = true ∧
      (loop env p q n w).outcome = some (.exit 1)) := by
  induction n generalizing w with
  | zero => left; exact ⟨rfl, by simp [loop]⟩
  | succ n ih =>
    rcases loop_cases env w with ⟨err, h⟩ | ⟨h, hr⟩ | ⟨h, err, hr, he⟩ | ⟨h, hr⟩
    · right; right
      refine ⟨[.print (str (p ++ q)), .stdinRead (env.stdin w.lines).1 (env.stdin w.lines).2],
        .connWrite (env.stdin w.lines).1 (some err),
        str ("Failed to write to connection: " ++ err.Error), ?_, ?_, rfl,
        (loop_write_err env p q n w err h).2⟩
      · rw [(loop_write_err env p q n w err h).1]; rfl
      · simp [Event.calm, Event.isClose, Event.isEOFRead, Event.isFailure]
    · right; left
      refine ⟨[.print (str (p ++ q)), .stdinRead (env.stdin w.lines).1 (env.stdin w.lines).2,
        .connWrite (env.stdin w.lines).1 none], 1024,
        (connRead (make 1024) (env.read w.reads)).1,
        (connRead (make 1024) (env.read w.reads)).2.1, ?_, ?_, ?_⟩
      · rw [(loop_read_eof env p q n w h hr).1, (closeAfterLoop_trace _ _).1]
        simp [World.step, hc]
      · simp [Event.calm, Event.isClose, Event.isEOFRead, Event.isFailure]
      · rw [(loop_read_eof env p q n w h hr).2, (closeAfterLoop_trace _ _).2]
    · right; right
      refine ⟨[.print (str (p ++ q)), .stdinRead (env.stdin w.lines).1 (env.stdin w.lines).2,
        .connWrite (env.stdin w.lines).1 none],
        .connRead 1024 (connRead (make 1024) (env.read w.reads)).1
          (connRead (make 1024) (env.read w.reads)).2.1 (some err),
        str ("Failed to read: " ++ err.Error), ?_, ?_, ?_,
        (loop_read_err env p q n w err h hr he).2⟩
      · rw [(loop_read_err env p q n w err h hr he).1]; rfl
      · simp [Event.calm, Event.isClose, Event.isEOFRead, Event.isFailure]
      · simp [Event.isFailure, he]
    · have hstep : (World.step w).conn = some c := by simp [World.step, hc]
      have hcalm : ∀ (l : List Event), (∀ e ∈ l, e.calm = true) →
          ∀ e ∈ Event.print (str (p ++ q)) ::
            .stdinRead (env.stdin w.lines).1 (env.stdin w.lines).2 ::
            .connWrite (env.stdin w.lines).1 none ::
            .connRead 1024 (connRead (make 1024) (env.read w.reads)).1
              (connRead (make 1024) (env.read w.reads)).2.1 none ::
            .log (str "Received: " ++ (connRead (make 1024) (env.read w.reads)).2.1.take
              (connRead (make 1024) (env.read w.reads)).1) :: l, e.calm = true := by
        intro l hl
        refine calm_cons _ _ rfl (calm_cons _ _ rfl (calm_cons _ _ rfl (calm_cons _ _ rfl
          (calm_cons _ _ rfl hl))))
      rw [(loop_read_ok env p q n w h hr).1, (loop_read_ok env p q n w h hr).2]
      rcases ih (World.step w) hstep with ⟨h1, h2⟩ | ⟨pre, len, k, buf, h1, h2, h3⟩ |
          ⟨pre, x, msg, h1, h2, h3, h4⟩
      · left; exact ⟨h1, hcalm _ h2⟩
      · right; left
        refine ⟨_, len, k, buf, ?_, hcalm pre h2, h3⟩
        rw [h1]; simp
      · right; right
        refine ⟨_, x, msg, ?_, hcalm pre h2, h3, h4⟩
        rw [h1]; simp

theorem banner_calm (flags : Flags) (args : List String) :
    ∀ e ∈ banner flags args, e.calm = true := by
  cases hc : flags.certificate <;>
    simp [banner, hc, Event.calm, Event.isClose, Event.isEOFRead, Event.isFailure]

theorem run_dialed (env : Env) (flags : Flags) (args : List String) (fuel : Nat) (w : World)
    (hd : ∃ a ins, Event.dial a ins none ∈ (run env flags args fuel w).trace) :
    argsOk args ∧ env.dial (hostOf args ++ ":" ++ portOf flags args) flags.insecure = none := by
  obtain ⟨a, ins, hmem⟩ := hd
  by_cases h : argsOk args
  · refine ⟨h, ?_⟩
    cases hdial : env.dial (hostOf args ++ ":" ++ portOf flags args) flags.insecure with
    | none => rfl
    | some err =>
      rw [(run_dial_err env flags args fuel w err h hdial).1] at hmem
      simp at hmem
  · obtain ⟨msg, hm⟩ := run_not_ok env flags args fuel w h
    rw [hm] at hmem
    simp [Fatalf, emit, osExit] at hmem

theorem run_end (env : Env) (flags : Flags) (args : List String) (fuel : Nat) (w : World)
    (o : Outcome)
    (hd : ∃ a ins, Event.dial a ins none ∈ (run env flags args fuel w).trace)
    (ho : (run env flags args fuel w).outcome = some o) :
    (∃ pre len k buf c, (run env flags args fuel w).trace =
        pre ++ [.connRead len k buf (some .EOF), .log (str eofNotice),
          .connClose (some c) env.close] ∧
      (∀ e ∈ pre, e.calm = true) ∧ o = .returned) ∨
    (∃ pre x msg, (run env flags args fuel w).trace = pre ++ [x, .log msg] ∧
      (∀ e ∈ pre, e.calm = true) ∧ x.isFailure = true ∧ o = .exit 1) := by
  obtain ⟨h, hdial⟩ := run_dialed env flags args fuel w hd
  have htr := (run_dial_ok env flags args fuel w h hdial).1
  have hout := (run_dial_ok env flags args fuel w h hdial).2
  rw [hout] at ho
  have hpre : ∀ (l : List Event), (∀ e ∈ l, e.calm = true) →
      ∀ e ∈ Event.log (str ("Trying " ++ hostOf args ++ "...")) ::
        .dial (hostOf args ++ ":" ++ portOf flags args) flags.insecure none ::
        (banner flags args ++ l), e.calm = true := by
    intro l hl
    refine calm_cons _ _ rfl (calm_cons _ _ rfl ?_)
    intro e he
    rcases List.mem_append.1 he with h1 | h1
    · exact banner_calm flags args e h1
    · exact hl e h1
  rcases loop_end env flags.prompt flags.padding fuel
      { w with conn := some ⟨hostOf args ++ ":" ++ portOf flags args, flags.insecure⟩ } _ rfl with
    ⟨h1, _⟩ | ⟨pre, len, k, buf, h1, h2, h3⟩ | ⟨pre, x, msg, h1, h2, h3, h4⟩
  · rw [h1] at ho; cases ho
  · left
    refine ⟨_, len, k, buf, ⟨hostOf args ++ ":" ++ portOf flags args, flags.insecure⟩, ?_,
      hpre pre h2, ?_⟩
    · rw [htr, h1]; simp
    · rw [h3] at ho; exact (Option.some.inj ho).symm
  · right
    refine ⟨_, x, msg, ?_, hpre pre h2, h3, ?_⟩
    · rw [htr, h1]; simp
    · rw [h4] at ho; exact (Option.some.inj ho).symm

theorem calm_not_close (e : Event) (h : e.calm = true) : e.isClose = false := by
  cases e <;> simp_all [Event.calm, Event.isClose]

theorem calm_not_eof (e : Event) (h : e.calm = true) : e.isEOFRead = false := by
  simp only [Event.calm, Bool.and_eq_true, Bool.not_eq_true'] at h
  exact h.1.2

theorem fatal_not_close (e : Event) (h : e.isFailure = true) : e.isClose = false := by
  cases e <;> simp_all [Event.isFailure, Event.isClose]

theorem fatal_not_eof (e : Event) (h : e.isFailure = true) : e.isEOFRead = false := by
  cases e with
  | connRead len n buf err =>
    cases err with
    | none => rfl
    | some err => cases err <;> simp_all [Event.isFailure, Event.isEOFRead]
  | _ => rfl

/-- C6: for every terminating execution of `run` after a successful dial,
`conn.Close` is called if and only if a connection read returned `io.EOF`,
and at most once.  In that case the trace ends with that read, the EOF
notice and the one `Close` call (no write or read after it), and `run`
returns normally (status 0).  Otherwise the trace ends with the failed write
or the failed read and the `log.Fatalf` message, the status is 1 and `Close`
is never called. -/
theorem C6_close_iff_eof (env : Env) (flags : Flags) (args : List String) (fuel : Nat)
    (w : World) (o : Outcome)
    (hd : ∃ a ins, Event.dial a ins none ∈ (run env flags args fuel w).trace)
    (ho : (run env flags args fuel w).outcome = some o) :
    (((run env flags args fuel w).trace.filter Event.isClose).length = 1 ↔
      ∃ e ∈ (run env flags args fuel w).trace, e.isEOFRead = true) ∧
    ((run env flags args fuel w).trace.filter Event.isClose).length ≤ 1 ∧
    ((∃ e ∈ (run env flags args fuel w).trace, e.isEOFRead = true) →
      ∃ pre len n buf c, (run env flags args fuel w).trace =
          pre ++ [.connRead len n buf (some .EOF), .log (str eofNotice),
            .connClose (some c) env.close] ∧
        (∀ e ∈ pre, e.isClose = false) ∧ o = .returned ∧ o.status = 0) ∧
    ((¬ ∃ e ∈ (run env flags args fuel w).trace, e.isEOFRead = true) →
      (∀ e ∈ (run env flags args fuel w).trace, e.isClose = false) ∧
      o = .exit 1 ∧ o.status = 1 ∧
      ∃ pre x msg, (run env flags args fuel w).trace = pre ++ [x, .log msg] ∧
        x.isFailure = true) := by
  rcases run_end env flags args fuel w o hd ho with
    ⟨pre, len, k, buf, c, h1, h2, h3⟩ | ⟨pre, x, msg, h1, h2, h3, h4⟩
  · have hfil : (run env flags args fuel w).trace.filter Event.isClose =
        [.connClose (some c) env.close] := by
      rw [h1, List.filter_append, List.filter_eq_nil_iff.2
        (fun e he => by simp [calm_not_close e (h2 e he)])]
      simp [Event.isClose]
    have heof : ∃ e ∈ (run env flags args fuel w).trace, e.isEOFRead = true :=
      ⟨.connRead len k buf (some .EOF), by rw [h1]; simp, rfl⟩
    refine ⟨⟨fun _ => heof, fun _ => by rw [hfil]; rfl⟩, by rw [hfil]; simp, ?_, ?_⟩
    · intro _
      exact ⟨pre, len, k, buf, c, h1, fun e he => calm_not_close e (h2 e he), h3, by rw [h3]; rfl⟩
    · intro hne
      exact absurd heof hne
  · have hnc : ∀ e ∈ (run env flags args fuel w).trace, e.isClose = false := by
      intro e he
      rw [h1] at he
      simp only [List.mem_append, List.mem_cons, List.mem_singleton, List.not_mem_nil,
        or_false] at he
      rcases he with he | he | he
      · exact calm_not_close e (h2 e he)
      · rw [he]; exact fatal_not_close x h3
      · rw [he]; rfl
    have hne : ¬ ∃ e ∈ (run env flags args fuel w).trace, e.isEOFRead = true := by
      rintro ⟨e, he, hx⟩
      rw [h1] at he
      simp only [List.mem_append, List.mem_cons, List.mem_singleton, List.not_mem_nil,
        or_false] at he
      rcases he with he | he | he
      · rw [calm_not_eof e (h2 e he)] at hx; cases hx
      · rw [he, fatal_not_eof x h3] at hx; cases hx
      · rw [he] at hx; cases hx
    have hfil : (run env flags args fuel w).trace.filter Event.isClose = [] :=
      List.filter_eq_nil_iff.2 (fun e he => by simp [hnc e he])
    refine ⟨⟨fun hlen => ?_, fun h => absurd h hne⟩, by rw [hfil]; simp, fun h => absurd h hne, ?_⟩
    · rw [hfil] at hlen; cases hlen
    · intro _
      exact ⟨hnc, h4, by rw [h4]; rfl, pre, x, msg, h1, h3⟩

/-- C6 on a session whose first connection read returns `io.EOF`: one `Close`
call, normal return. -/
theorem C6_close_iff_eof_witness :
    (((run (scriptEnv [(str "hi\n", none)] [] none) Flags.default ["example.com"] 3
        World.init).trace.filter Event.isClose).length = 1 ↔
      ∃ e ∈ (run (scriptEnv [(str "hi\n", none)] [] none) Flags.default ["example.com"] 3
        World.init).trace, e.isEOFRead = true) ∧
    (run (scriptEnv [(str "hi\n", none)] [] none) Flags.default ["example.com"] 3
        World.init).trace.filter Event.isClose =
      [.connClose (some ⟨"example.com:443", false⟩) none] ∧
    (run (scriptEnv [(str "hi\n", none)] [] none) Flags.default ["example.com"] 3
        World.init).outcome = some .returned :=
  ⟨(C6_close_iff_eof (scriptEnv [(str "hi\n", none)] [] none) Flags.default ["example.com"] 3
      World.init .returned ⟨"example.com:443", false, by decide⟩ (by decide)).1,
    by decide, by decide⟩

/-- C7 at a failing `Close`: after `io.EOF` on the first connection read,
`conn.Close` returns an error and `run` ends right there with a normal
return (status 0) and no diagnostic, whereas `catchInterrupt`, in the same
state and with the same error, logs `Failed to close connection: ...` and
exits with status 1. -/
theorem C7_run_swallows_close_error :
    (run (scriptEnv [(str "hi\n", none)] [] (some (.other "close failed"))) Flags.default
        ["example.com"] 1 World.init).trace.drop 7 =
      [.connRead 1024 0 (make 1024) (some .EOF), .log (str eofNotice),
       .connClose (some ⟨"example.com:443", false⟩) (some (.other "close failed"))] ∧
    (run (scriptEnv [(str "hi\n", none)] [] (some (.other "close failed"))) Flags.default
        ["example.com"] 1 World.init).outcome = some .returned ∧
    (run (scriptEnv [(str "hi\n", none)] [] (some (.other "close failed"))) Flags.default
        ["example.com"] 1 World.init).outcome.map Outcome.status = some 0 ∧
    (catchInterrupt (scriptEnv [(str "hi\n", none)] [] (some (.other "close failed")))
        ⟨some ⟨"example.com:443", false⟩, 1, 1, 1⟩).trace =
      [.log (str interruptNotice),
       .connClose (some ⟨"example.com:443", false⟩) (some (.other "close failed")),
       .log (str "Failed to close connection: close failed")] ∧
    (catchInterrupt (scriptEnv [(str "hi\n", none)] [] (some (.other "close failed")))
        ⟨some ⟨"example.com:443", false⟩, 1, 1, 1⟩).outcome = some (.exit 1) := by
  refine ⟨by rfl, by decide, by decide, by decide, by decide⟩

/-- C8: whatever the state of `conn` when the signal arrives, `catchInterrupt`
first logs the interrupt notice, calls `conn.Close` exactly once when `conn`
is not nil and not at all when it is nil, never reads from or writes to the
connection, and exits with status 0 whenever `conn` is nil or the close
succeeds. -/
theorem C8_catchInterrupt (env : Env) (w : World) :
    (catchInterrupt env w).trace.head? = some (.log (str interruptNotice)) ∧
    (catchInterrupt env w).trace.filter Event.isClose =
      (match w.conn with
        | none => []
        | some c => [.connClose (some c) env.close]) ∧
    (∀ e ∈ (catchInterrupt env w).trace, e.isRead = false ∧ e.isWrite = false) ∧
    ((w.conn = none ∨ env.close = none) →
      (catchInterrupt env w).outcome = some (.exit 0) ∧
      (catchInterrupt env w).outcome.map Outcome.status = some 0) := by
  unfold catchInterrupt
  cases hc : w.conn with
  | none =>
    simp [emit, osExit, Event.isClose, Event.isRead, Event.isWrite, Outcome.status]
  | some c =>
    cases hx : env.close with
    | none =>
      simp [emit, osExit, Event.isClose, Event.isRead, Event.isWrite, Outcome.status]
    | some err =>
      simp [emit, osExit, Fatalf, Event.isClose, Event.isRead, Event.isWrite]

/-- C8 with no connection (`conn` is nil): exit status 0 and no `Close`. -/
theorem C8_catchInterrupt_witness :
    (catchInterrupt (scriptEnv [] [] none) World.init).outcome = some (.exit 0) ∧
    (catchInterrupt (scriptEnv [] [] none) World.init).outcome.map Outcome.status = some 0 :=
  (C8_catchInterrupt (scriptEnv [] [] none) World.init).2.2.2 (Or.inl rfl)

theorem loop_terminates_iff (env : Env) (p q : String) (n : Nat) (w : World) :
    (loop env p q n w).outcome ≠ none ↔
      ∃ k, k < n ∧ (env.write (w.writes + k) (env.stdin (w.lines + k)).1 ≠ none ∨
        (env.read (w.reads + k)).2 ≠ none) := by
  induction n generalizing w with
  | zero => simp [loop]
  | succ n ih =>
    rcases loop_cases env w with ⟨err, h⟩ | ⟨h, hr⟩ | ⟨h, err, hr, he⟩ | ⟨h, hr⟩
    · rw [(loop_write_err env p q n w err h).2]
      exact ⟨fun _ => ⟨0, by omega, Or.inl (by simp [h])⟩, fun _ => by simp⟩
    · rw [(loop_read_eof env p q n w h hr).2, (closeAfterLoop_trace _ _).2]
      exact ⟨fun _ => ⟨0, by omega, Or.inr (by simp [hr])⟩, fun _ => by simp⟩
    · rw [(loop_read_err env p q n w err h hr he).2]
      exact ⟨fun _ => ⟨0, by omega, Or.inr (by simp [hr])⟩, fun _ => by simp⟩
    · rw [(loop_read_ok env p q n w h hr).2, ih (World.step w)]
      simp only [World.step]
      constructor
      · rintro ⟨k, hk, hor⟩
        refine ⟨k + 1, by omega, ?_⟩
        rw [show w.writes + (k + 1) = w.writes + 1 + k by omega,
          show w.lines + (k + 1) = w.lines + 1 + k by omega,
          show w.reads + (k + 1) = w.reads + 1 + k by omega]
        exact hor
      · rintro ⟨k, hk, hor⟩
        cases k with
        | zero =>
          simp only [Nat.add_zero] at hor
          rcases hor with hor | hor
          · exact absurd h hor
          · exact absurd hr hor
        | succ j =>
          refine ⟨j, by omega, ?_⟩
          rw [show w.writes + (j + 1) = w.writes + 1 + j by omega,
            show w.lines + (j + 1) = w.lines + 1 + j by omega,
            show w.reads + (j + 1) = w.reads + 1 + j by omega] at hor
          exact hor

/-- C9: end of standard input does not end the loop.  Whatever error `e` the
line read reports (also `io.EOF`, with the remaining text `T`, possibly
empty), the next event is the write of `T` as it is, and the connection read
follows when the write succeeds.  The loop ends within `fuel` iterations if
and only if within them a connection write fails or a connection read
reports an error (`io.EOF` included): the line read has no part in it. -/
theorem C9_stdin_eof_does_not_end_loop (env : Env) (prompt padding : String) (fuel : Nat)
    (w : World) :
    (∀ i T e, (loop env prompt padding fuel w).trace[i]? = some (.stdinRead T e) →
      ∃ r, (loop env prompt padding fuel w).trace[i + 1]? = some (.connWrite T r) ∧
        (r = none → ∃ n buf r2,
          (loop env prompt padding fuel w).trace[i + 2]? = some (.connRead 1024 n buf r2))) ∧
    ((loop env prompt padding fuel w).outcome ≠ none ↔
      ∃ k, k < fuel ∧ (env.write (w.writes + k) (env.stdin (w.lines + k)).1 ≠ none ∨
        (env.read (w.reads + k)).2 ≠ none)) := by
  refine ⟨fun i T e h => ?_, loop_terminates_iff env prompt padding fuel w⟩
  obtain ⟨r, hr⟩ := (loop_follows env prompt padding fuel w i _ h).1 T e rfl
  have hr1 : (loop env prompt padding fuel w).trace[i + 1]? = some (.connWrite T r) := by
    simpa using hr
  refine ⟨r, hr1, fun hnone => ?_⟩
  subst hnone
  obtain ⟨n, buf, r2, h2, _⟩ := (loop_follows env prompt padding fuel w (i + 1) _ hr1).2.1 T rfl
  exact ⟨n, buf, r2, by simpa [Nat.add_assoc] using h2⟩

/-- C9 on a session whose standard input is at its end from the start while
the server keeps answering: each line read returns no text and `io.EOF`, the
empty text is written, and after three iterations the loop is still running. -/
theorem C9_stdin_eof_does_not_end_loop_witness :
    (loop (scriptEnv [] [(str "a", none), (str "b", none), (str "c", none)] none) "$" " " 3
        World.init).trace[1]? = some (.stdinRead [] (some .EOF)) ∧
    (∃ r, (loop (scriptEnv [] [(str "a", none), (str "b", none), (str "c", none)] none) "$" " " 3
        World.init).trace[1 + 1]? = some (.connWrite [] r) ∧
        (r = none → ∃ n buf r2,
          (loop (scriptEnv [] [(str "a", none), (str "b", none), (str "c", none)] none) "$" " " 3
            World.init).trace[1 + 2]? = some (.connRead 1024 n buf r2))) ∧
    (loop (scriptEnv [] [(str "a", none), (str "b", none), (str "c", none)] none) "$" " " 3
        World.init).outcome = none :=
  ⟨by decide,
    (C9_stdin_eof_does_not_end_loop
      (scriptEnv [] [(str "a", none), (str "b", none), (str "c", none)] none) "$" " " 3
      World.init).1 1 [] (some .EOF) (by decide),
    by decide⟩

end RootGo
namespace MainGo

theorem step_conn (env : Env) (s : State) : (step env s).world.conn = s.world.conn := by
  unfold step
  cases s.pc with
  | dialing => cases hd : env.dial dialAddr true <;> simp [hd]
  | prompting => rfl
  | readingLine => rfl
  | writing text => cases hw : env.write s.world.writes text <;> simp [hw]
  | reading => cases hr : (connRead (make 1024) (env.read s.world.reads)).2.2 <;> simp [hr]
  | logging n buf => rfl
  | done o => rfl

theorem reach_conn (env : Env) (n : Nat) : (reach env n).world.conn = none := by
  induction n with
  | zero => rfl
  | succ n ih => rw [reach, step_conn, ih]

theorem step_local (env : Env) (s : State) (h : s.pc ≠ .dialing) :
    (step env s).pc ≠ .dialing ∧ (step env s).localConn = s.localConn := by
  unfold step
  cases hp : s.pc with
  | dialing => exact absurd hp h
  | prompting => simp
  | readingLine => simp
  | writing text => cases hw : env.write s.world.writes text <;> simp [hw]
  | reading => cases hr : (connRead (make 1024) (env.read s.world.reads)).2.2 <;> simp [hr]
  | logging n buf => simp
  | done o => simp [hp]

theorem reach_local (env : Env) (n : Nat) (hd : env.dial dialAddr true = none) :
    (reach env (n + 1)).pc ≠ .dialing ∧ (reach env (n + 1)).localConn = some ⟨dialAddr, true⟩ := by
  induction n with
  | zero => simp [reach, step, State.init, hd]
  | succ n ih =>
    have := step_local env (reach env (n + 1)) ih.1
    rw [reach]
    exact ⟨this.1, by rw [this.2, ih.2]⟩

/-- C10: in every state that `main` of `main.go` reaches, the package-level
`conn` is nil, while after a successful dial the connection is held by the
local variable of `main`.  So when the signal arrives in any reachable
state, `catchInterrupt` prints its notice and calls `Close` on a nil
connection: no `Close` reaches the dialed connection, the call panics and
the `os.Exit(0)` after a successful close is not reached. -/
theorem C10_main_conn_stays_nil (env : Env) (n : Nat) :
    (reach env n).world.conn = none ∧
    (env.dial dialAddr true = none → 1 ≤ n →
      (reach env n).localConn = some ⟨dialAddr, true⟩) ∧
    (catchInterrupt env (reach env n).world).trace =
      [.print (str "\nReceived an interrupt, closing connection...\n"),
       .connClose none none] ∧
    (∀ c r, Event.connClose (some c) r ∉ (catchInterrupt env (reach env n).world).trace) ∧
    (catchInterrupt env (reach env n).world).outcome = some .panic ∧
    (catchInterrupt env (reach env n).world).outcome ≠ some (.exit 0) := by
  have hc := reach_conn env n
  have ht : (catchInterrupt env (reach env n).world).trace =
      [.print (str "\nReceived an interrupt, closing connection...\n"),
       .connClose none none] := by
    simp [catchInterrupt, hc, emit]
  have ho : (catchInterrupt env (reach env n).world).outcome = some .panic := by
    simp [catchInterrupt, hc, emit]
  refine ⟨hc, ?_, ht, ?_, ho, by rw [ho]; simp⟩
  · intro hd hn
    obtain ⟨m, rfl⟩ : ∃ m, n = m + 1 := ⟨n - 1, by omega⟩
    exact (reach_local env m hd).2
  · intro c r hmem
    rw [ht] at hmem
    simp at hmem

/-- C10 on a session in progress: after seven statements of `main` the dialed
connection is in the local variable and the package-level `conn` is nil. -/
theorem C10_main_conn_stays_nil_witness :
    (reach (scriptEnv [(str "hi\n", none)] [(str "yo", none)] none) 7).localConn =
      some ⟨dialAddr, true⟩ ∧
    (reach (scriptEnv [(str "hi\n", none)] [(str "yo", none)] none) 7).world.conn = none ∧
    (reach (scriptEnv [(str "hi\n", none)] [(str "yo", none)] none) 7).pc = .readingLine :=
  ⟨(C10_main_conn_stays_nil (scriptEnv [(str "hi\n", none)] [(str "yo", none)] none) 7).2.1
      rfl (by decide),
    (C10_main_conn_stays_nil (scriptEnv [(str "hi\n", none)] [(str "yo", none)] none) 7).1,
    by decide⟩

end MainGo
end Stelnet
